import Mathlib

/-!
# Verification of the PLC data pool / shift dashboard core

Shallow embedding of the polling, shift-windowing and persistence logic of
the two programs `src/app.py` (per-line shift dashboard) and
`src/plc_monitor_master.py` (central PLC data pool), with theorems settling
the spec's claims about them.

Python integers are modelled as `ℤ`/`ℕ`; Python's `int(x)` truncation of a
true-division quotient is `Int.tdiv` (truncation toward zero); Python float
arithmetic on the small dyadic values appearing here is modelled as exact
rational arithmetic on `ℚ` (every intermediate value in the one fractional
computation, `total_actual / 12` and the downtime formula applied to it, is
far enough from the integer truncation boundaries that IEEE rounding cannot
change the truncated result).  SQL tables are modelled as lists of rows in
insertion order; Python dicts as association lists with insert-or-replace
update.  Wall-clock, logging and socket I/O are outside the claims.
-/

namespace PLCPool

/-! ## Downtime formula (src/app.py, `calculate_downtime_minutes`) -/

/-- `CYCLE_TIME = 150` from src/app.py: seconds needed to produce one unit. -/
def CYCLE_TIME : ℤ := 150

/-- `TARGET_VALUE = 20` from src/app.py: the hourly production target. -/
def TARGET_VALUE : ℤ := 20

/-- `calculate_downtime_minutes` from src/app.py lines 158-162:
`max(0, int((3600 - (actual_units * CYCLE_TIME)) / 60))`.
Python's `int()` of the float quotient truncates toward zero, i.e. `Int.tdiv`. -/
def calculate_downtime_minutes (actual_units : ℤ) : ℤ :=
  max 0 (Int.tdiv (3600 - actual_units * CYCLE_TIME) 60)

/-- Python `int()` on a rational value: truncation toward zero, i.e. the
truncating division of the reduced numerator by the (positive) denominator
(`⌊q⌋` for `0 ≤ q`, `⌈q⌉` for `q < 0`). -/
def pyTrunc (q : ℚ) : ℤ :=
  Int.tdiv q.num (q.den : ℤ)

/-- `calculate_downtime_minutes` applied to a possibly fractional unit count,
as happens in `save_daily_summary` where `total_actual / 12` is Python float
(true) division.  Exact rational model of the float computation. -/
def calculate_downtime_minutes_frac (actual_units : ℚ) : ℤ :=
  max 0 (pyTrunc ((3600 - actual_units * (CYCLE_TIME : ℚ)) / 60))

/-- The downtime formula as the spec's words state it: rounding the quotient
to the *nearest* minute (Mathlib's `round`, i.e. `⌊x + 1/2⌋`).  Modelled from
the spec for comparison with the source's truncating formula. -/
def downtimeMinutesSpecRound (actual_units : ℤ) : ℤ :=
  max 0 (round ((3600 - (actual_units : ℚ) * (CYCLE_TIME : ℚ)) / 60))

/-- Truncating and flooring the by-60 quotient agree under `max 0`:
for a nonnegative numerator they coincide, for a negative one both sides
are clamped to `0`. -/
theorem max_tdiv_eq_max_floor (a : ℤ) :
    max 0 (Int.tdiv a 60) = max 0 ⌊(a : ℚ) / 60⌋ := by
  rcases le_or_lt 0 a with h | h
  · have h60 : ((60 : ℚ)) = ((60 : ℕ) : ℚ) := by norm_num
    rw [Int.tdiv_eq_ediv h (by norm_num)]
    rw [h60, Rat.floor_intCast_div_natCast]
    norm_num
  · have h1 : Int.tdiv a 60 ≤ 0 := by
      have h2 : (0 : ℤ) ≤ Int.tdiv (-a) 60 :=
        Int.tdiv_nonneg (by omega) (by norm_num)
      rw [Int.neg_tdiv] at h2
      omega
    have h3 : ((a : ℚ) / 60) ≤ 0 := by
      apply div_nonpos_of_nonpos_of_nonneg
      · exact_mod_cast h.le
      · norm_num
    have h4 : ⌊(a : ℚ) / 60⌋ ≤ 0 := Int.floor_nonpos h3
    omega

/-! ## Shift hour windows (src/app.py, `process_hourly_data`) -/

/-- `day_hours = list(range(7, 19))` from src/app.py line 294. -/
def day_hours : List ℕ := List.range' 7 12

/-- `night_hours = list(range(19, 24)) + list(range(0, 7))` from
src/app.py line 296. -/
def night_hours : List ℕ := List.range' 19 5 ++ List.range' 0 7

/-! ## Shift date resolution (src/app.py, `read_plc_1a` lines 426-442) -/

/-- The module-level `current_date` record of src/app.py. -/
structure DateInfo where
  day_month : ℕ
  day_date : ℕ
  night_month : ℕ
  night_date : ℕ
deriving DecidableEq

/-- The date-resolution block of `read_plc_1a` (src/app.py lines 426-442):
day-shift date always from the device's current-day registers (D700/D710);
night-shift date from the current-day registers while the night shift is in
progress (`current_hour >= 19 or current_hour < 7`), otherwise from the
previous-day registers (D701/D711). -/
def resolveDates (current_hour : ℕ)
    (day_month day_date yesterday_month yesterday_date : ℕ) : DateInfo :=
  if 19 ≤ current_hour ∨ current_hour < 7 then
    ⟨day_month, day_date, day_month, day_date⟩
  else
    ⟨day_month, day_date, yesterday_month, yesterday_date⟩

/-! ## Theorems for claims C2, C9, C6 -/

/-- C2 counterexample: the claim's round-to-nearest contract disagrees with
the source at one produced unit.  `calculate_downtime_minutes(1)` truncates
`(3600 - 150)/60 = 57.5` to `57`, while the claimed formula rounds it to
the nearest minute, `58`. -/
theorem c2_round_contract_fails_at_one_unit :
    calculate_downtime_minutes 1 = 57 ∧
    downtimeMinutesSpecRound 1 = 58 ∧
    calculate_downtime_minutes 1 ≠ downtimeMinutesSpecRound 1 := by
  have h1 : calculate_downtime_minutes 1 = 57 := by decide
  have h2 : downtimeMinutesSpecRound 1 = 58 := by
    unfold downtimeMinutesSpecRound
    rw [round_eq]
    norm_num [CYCLE_TIME]
  exact ⟨h1, h2, by omega⟩

/-- C2 (amended): the source formula is
`downtimeMinutes(u) = max(0, ⌊(3600 − u·cycleTime)/60⌋)` — the quotient is
truncated, not rounded to the nearest minute (for the unit counts with
positive remaining time, truncation is the floor; beyond them the `max`
clamps both to 0).  As the claim states, the result is never negative and
`downtimeMinutes(0) = 60`. -/
theorem c2_downtime_truncates_nonneg_full_hour_at_zero (u : ℤ) :
    calculate_downtime_minutes u =
      max 0 ⌊((3600 : ℚ) - (u : ℚ) * (CYCLE_TIME : ℚ)) / 60⌋ ∧
    0 ≤ calculate_downtime_minutes u ∧
    calculate_downtime_minutes 0 = 60 := by
  refine ⟨?_, le_max_left _ _, by decide⟩
  unfold calculate_downtime_minutes
  rw [max_tdiv_eq_max_floor]
  congr 2
  push_cast
  ring

/-- C9: every hour below 24 is in `day_hours` exactly when `7 ≤ h < 19`, in
`night_hours` exactly when `19 ≤ h < 24` or `h < 7`, and in exactly one of
the two lists. -/
theorem c9_shift_classification :
    ∀ h : ℕ, h < 24 →
      ((h ∈ day_hours ↔ 7 ≤ h ∧ h < 19) ∧
       (h ∈ night_hours ↔ (19 ≤ h ∧ h < 24) ∨ h < 7) ∧
       (h ∈ day_hours ↔ ¬ h ∈ night_hours)) := by
  decide

/-- Witness for C9 at hour 8: a day-shift hour. -/
theorem c9_shift_classification_witness : 8 ∈ day_hours :=
  (c9_shift_classification 8 (by decide)).1.mpr (by decide)

/-- C6: for every hour of the day and any device-reported dates, the
day-shift date fields always equal the device's current-day registers; the
night-shift date fields equal the current-day registers when `h ≥ 19` or
`h < 7` and the previous-day registers when `7 ≤ h < 19`; including the
spec's example (month 3, day 10 current, day 9 previous; hours 14 and 22). -/
theorem c6_shift_date_resolution :
    (∀ h : ℕ, h < 24 → ∀ dm dd ym yd : ℕ,
      (resolveDates h dm dd ym yd).day_month = dm ∧
      (resolveDates h dm dd ym yd).day_date = dd ∧
      ((19 ≤ h ∨ h < 7) →
        (resolveDates h dm dd ym yd).night_month = dm ∧
        (resolveDates h dm dd ym yd).night_date = dd) ∧
      ((7 ≤ h ∧ h < 19) →
        (resolveDates h dm dd ym yd).night_month = ym ∧
        (resolveDates h dm dd ym yd).night_date = yd)) ∧
    resolveDates 14 3 10 3 9 = ⟨3, 10, 3, 9⟩ ∧
    resolveDates 22 3 10 3 9 = ⟨3, 10, 3, 10⟩ := by
  refine ⟨?_, by decide, by decide⟩
  intro h _ dm dd ym yd
  unfold resolveDates
  split
  · refine ⟨rfl, rfl, fun _ => ⟨rfl, rfl⟩, fun hc => ?_⟩
    omega
  · next hcond =>
    push_neg at hcond
    refine ⟨rfl, rfl, fun hc => ?_, fun _ => ⟨rfl, rfl⟩⟩
    omega

/-- Witness for C6 at hour 22 with concrete register values. -/
theorem c6_shift_date_resolution_witness :
    (resolveDates 22 5 6 7 8).night_date = 6 :=
  ((c6_shift_date_resolution.1 22 (by decide) 5 6 7 8).2.2.1 (by decide)).2

/-! ## The `production_data` table (src/app.py, `save_to_database`) -/

/-- One row of the `production_data` table (src/app.py lines 105-117).
The autoincrement id and the `created_at` wall-clock column are outside
every claim and omitted. -/
structure ProductionRow where
  date : String
  hour : ℕ
  line_id : String
  shift : String
  target : ℤ
  actual : ℤ
  downtime : ℤ
deriving DecidableEq

/-- The lookup key used by `save_to_database`'s SELECT/UPDATE
(src/app.py lines 174-187): `date=? AND hour=? AND line_id=?` —
note the shift column is *not* part of the lookup. -/
def rowKeyMatches (date : String) (hour : ℕ) (line_id : String)
    (r : ProductionRow) : Bool :=
  r.date == date && r.hour == hour && r.line_id == line_id

/-- `save_to_database` from src/app.py lines 165-200: compute the downtime
for the actual count, then update the matching row in place if one exists
(SQL UPDATE touches every matching row and does not change `shift`),
otherwise insert a new row at the end of the table. -/
def save_to_database (db : List ProductionRow) (date_str : String) (hour : ℕ)
    (line_id shift : String) (target actual : ℤ) : List ProductionRow :=
  let downtime_minutes := calculate_downtime_minutes actual
  if db.any (rowKeyMatches date_str hour line_id) then
    db.map (fun r =>
      if rowKeyMatches date_str hour line_id r then
        { r with target := target, actual := actual, downtime := downtime_minutes }
      else r)
  else
    db ++ [⟨date_str, hour, line_id, shift, target, actual, downtime_minutes⟩]

/-- `calculate_actual_total_downtime` from src/app.py lines 241-261: sum of
the `downtime` column over the rows whose date, line and shift match. -/
def calculate_actual_total_downtime (db : List ProductionRow)
    (date_str line_id shift : String) : ℤ :=
  ((db.filter (fun r =>
      r.date == date_str && r.line_id == line_id && r.shift == shift)).map
    (fun r => r.downtime)).sum

/-! ## The `daily_summary` table (src/app.py, `save_daily_summary`) -/

/-- One row of the `daily_summary` table (src/app.py lines 120-131),
without the autoincrement id and `created_at`. -/
structure SummaryRow where
  date : String
  line_id : String
  shift : String
  total_target : ℤ
  total_actual : ℤ
  total_downtime : ℤ
deriving DecidableEq

/-- The total-downtime value `save_daily_summary` stores (src/app.py lines
206-207): `sum(calculate_downtime_minutes(actual) for actual in
[total_actual / 12] * 12)` — the shift total spread evenly over 12 hours
and re-derived, `total_actual / 12` being float division. -/
def save_daily_summary_total_downtime (total_actual : ℤ) : ℤ :=
  ((List.replicate 12 ((total_actual : ℚ) / 12)).map
    calculate_downtime_minutes_frac).sum

/-- `save_daily_summary` from src/app.py lines 203-238: upsert on
`(date, line_id, shift)`, storing the spread-estimation total downtime. -/
def save_daily_summary (sdb : List SummaryRow) (date_str line_id shift : String)
    (total_target total_actual : ℤ) : List SummaryRow :=
  let total_downtime := save_daily_summary_total_downtime total_actual
  if sdb.any (fun r => r.date == date_str && r.line_id == line_id && r.shift == shift) then
    sdb.map (fun r =>
      if r.date == date_str && r.line_id == line_id && r.shift == shift then
        { r with total_target := total_target, total_actual := total_actual,
                 total_downtime := total_downtime }
      else r)
  else
    sdb ++ [⟨date_str, line_id, shift, total_target, total_actual, total_downtime⟩]

/-! ## Theorem for claim C1 -/

/-- C1 (code bug): the daily summary's stored total downtime is re-derived
from the shift's total actual units spread over 12 hours, not the sum of the
persisted hourly downtime rows, and the two disagree.  Failing input: one
persisted hourly row (date 2024-03-10, line 1A, shift Day, hour 7, actual 0,
downtime 60); `save_daily_summary` for that date/line/shift with
`total_actual = 0` stores `total_downtime = 12 · downtime(0) = 720`, while
the sum of the shift's hourly rows (`calculate_actual_total_downtime`, a
function the source defines but never calls) is `60`. -/
theorem c1_summary_downtime_not_sum_of_hourly_rows :
    (save_to_database [] "2024-03-10" 7 "1A" "Day" TARGET_VALUE 0).filter
        (fun r => r.date == "2024-03-10" && r.line_id == "1A" && r.shift == "Day") =
      [⟨"2024-03-10", 7, "1A", "Day", TARGET_VALUE, 0, 60⟩] ∧
    calculate_actual_total_downtime
      (save_to_database [] "2024-03-10" 7 "1A" "Day" TARGET_VALUE 0)
      "2024-03-10" "1A" "Day" = 60 ∧
    (save_daily_summary [] "2024-03-10" "1A" "Day" (TARGET_VALUE * 12) 0).map
        (fun r => r.total_downtime) = [720] ∧
    (720 : ℤ) ≠ 60 := by
  refine ⟨by decide, by decide, ?_, by decide⟩
  have h : save_daily_summary_total_downtime 0 = 720 := by
    simp [save_daily_summary_total_downtime, calculate_downtime_minutes_frac,
      pyTrunc, CYCLE_TIME]
    norm_num
  simp [save_daily_summary, h]

/-! ## Theorems for claim C8 -/

/-- The natural key of an hourly record as the claim states it:
`(date, device id, shift, hour)`. -/
def sameNatKey (date : String) (hour : ℕ) (line_id shift : String)
    (r : ProductionRow) : Bool :=
  r.date == date && r.hour == hour && r.line_id == line_id && r.shift == shift

/-- No two rows of the table share the lookup key `(date, hour, line_id)`. -/
def NoDupKeys (db : List ProductionRow) : Prop :=
  db.Pairwise (fun r1 r2 =>
    ¬(r1.date = r2.date ∧ r1.hour = r2.hour ∧ r1.line_id = r2.line_id))

/-- C8: upserting twice with the same natural key and different actual
values leaves exactly one row for that key, carrying the latest target,
actual and downtime; `save_to_database` preserves the no-duplicate-key
invariant (on its lookup key `(date, hour, line_id)`), which implies no two
rows ever share the finer natural key `(date, hour, line_id, shift)`. -/
theorem c8_upsert_single_row_latest_values :
    (∀ (db : List ProductionRow) (d : String) (h : ℕ) (lid s : String)
        (t a1 a2 : ℤ),
      (∀ r ∈ db, rowKeyMatches d h lid r = false) →
      (save_to_database (save_to_database db d h lid s t a1) d h lid s t a2).filter
          (sameNatKey d h lid s) =
        [⟨d, h, lid, s, t, a2, calculate_downtime_minutes a2⟩]) ∧
    (∀ (db : List ProductionRow) (d : String) (h : ℕ) (lid s : String)
        (t a : ℤ), NoDupKeys db → NoDupKeys (save_to_database db d h lid s t a)) ∧
    (∀ db : List ProductionRow, NoDupKeys db →
      db.Pairwise (fun r1 r2 =>
        ¬(r1.date = r2.date ∧ r1.hour = r2.hour ∧ r1.line_id = r2.line_id ∧
          r1.shift = r2.shift))) := by
  refine ⟨?_, ?_, ?_⟩
  · intro db d h lid s t a1 a2 hfresh
    have hany1 : db.any (rowKeyMatches d h lid) = false := by
      rw [List.any_eq_false]
      intro r hr
      simp [hfresh r hr]
    have h1 : save_to_database db d h lid s t a1 =
        db ++ [⟨d, h, lid, s, t, a1, calculate_downtime_minutes a1⟩] := by
      unfold save_to_database
      simp [hany1]
    have hr1 : rowKeyMatches d h lid
        (⟨d, h, lid, s, t, a1, calculate_downtime_minutes a1⟩ : ProductionRow) = true := by
      simp [rowKeyMatches]
    have hany2 : (db ++ [(⟨d, h, lid, s, t, a1,
        calculate_downtime_minutes a1⟩ : ProductionRow)]).any
        (rowKeyMatches d h lid) = true := by
      rw [List.any_eq_true]
      exact ⟨_, by simp, hr1⟩
    rw [h1]
    unfold save_to_database
    simp only [hany2, if_true]
    rw [List.map_append, List.filter_append]
    have hleft : (db.map (fun r =>
        if rowKeyMatches d h lid r then
          { r with target := t, actual := a2,
                   downtime := calculate_downtime_minutes a2 }
        else r)).filter (sameNatKey d h lid s) = [] := by
      rw [List.filter_eq_nil_iff]
      intro r hr
      rw [List.mem_map] at hr
      obtain ⟨r0, hr0, hmap⟩ := hr
      rw [if_neg (by simp [hfresh r0 hr0])] at hmap
      subst hmap
      have := hfresh r0 hr0
      simp only [rowKeyMatches, Bool.and_eq_false_iff] at this
      simp only [sameNatKey, Bool.and_eq_true, ne_eq]
      intro hcontra
      rcases this with (h' | h') | h'
      · simp [h'] at hcontra
      · simp [h'] at hcontra
      · simp [h'] at hcontra
    rw [hleft]
    simp [hr1, sameNatKey]
  · intro db d h lid s t a hnd
    unfold save_to_database
    split
    · next hany =>
      rw [NoDupKeys, List.pairwise_map]
      refine hnd.imp ?_
      intro r1 r2 h12 hcontra
      apply h12
      revert hcontra
      split <;> split <;> simp +contextual
    · next hany =>
      rw [NoDupKeys, List.pairwise_append]
      refine ⟨hnd, List.pairwise_singleton _ _, ?_⟩
      intro r hr r' hr' hcontra
      simp only [List.mem_singleton] at hr'
      subst hr'
      simp only at hcontra
      apply hany
      rw [List.any_eq_true]
      refine ⟨r, hr, ?_⟩
      simp [rowKeyMatches, hcontra.1, hcontra.2.1, hcontra.2.2]
  · intro db hnd
    refine hnd.imp ?_
    intro r1 r2 h12 hcontra
    exact h12 ⟨hcontra.1, hcontra.2.1, hcontra.2.2.1⟩

/-- Witness for C8: two upserts on an initially empty table. -/
theorem c8_upsert_single_row_latest_values_witness :
    (save_to_database (save_to_database [] "2024-03-10" 7 "1A" "Day" 20 5)
        "2024-03-10" 7 "1A" "Day" 20 9).filter
      (sameNatKey "2024-03-10" 7 "1A" "Day") =
      [⟨"2024-03-10", 7, "1A", "Day", 20, 9, calculate_downtime_minutes 9⟩] :=
  c8_upsert_single_row_latest_values.1 [] "2024-03-10" 7 "1A" "Day" 20 5 9
    (fun r hr => absurd hr (List.not_mem_nil r))

/-! ## Hour-window register requests (src/app.py, `read_plc_1a` lines 444-552) -/

/-- The hours whose production registers `read_plc_1a` requests for the
shift in progress at wall-clock hour `h`:
before 7am the full night block `19..23, 0..6` (current-day registers);
between 7am and 7pm the day hours `range(7, min(h+1, 19))`;
from 7pm on the night hours `range(19, min(h+1, 24))`. -/
def inProgressShiftHours (h : ℕ) : List ℕ :=
  if h < 7 then List.range' 19 5 ++ List.range' 0 7
  else if h < 19 then List.range' 7 (min (h + 1) 19 - 7)
  else List.range' 19 (min (h + 1) 24 - 19)

/-- Every register block read `read_plc_1a` issues at hour `h`, as
`(device code, word count)` pairs: the four date registers D700, D710,
D701, D711, then the per-hour production registers of the branch taken
(`D800+i` current-day, `D850+i` previous-day).  Each read is a single-word
`batchread_wordunits(f"D{d_code}", 1)`. -/
def requestedReads (h : ℕ) : List (ℕ × ℕ) :=
  [(700, 1), (710, 1), (701, 1), (711, 1)] ++
  (if h < 7 then
    ((List.range' 19 5 ++ List.range' 0 7).map (fun i => (800 + i, 1))) ++
    ((List.range' 7 12).map (fun i => (800 + i, 1)))
  else if h < 19 then
    ((List.range' 7 (min (h + 1) 19 - 7)).map (fun i => (800 + i, 1))) ++
    ((List.range' 19 5 ++ List.range' 0 7).map (fun i => (850 + i, 1)))
  else
    ((List.range' 19 (min (h + 1) 24 - 19)).map (fun i => (800 + i, 1))) ++
    ((List.range' 7 12).map (fun i => (800 + i, 1))))

/-! ## Theorems for claim C4 -/

/-- C4 counterexample: at exactly hour 7 the set of reads for the elapsed
hours of the newly active day shift is *not* empty — the code requests the
just-begun hour 7 itself (`range(7, min(7+1, 19)) = [7]`), and likewise
hour 19 at the night boundary. -/
theorem c4_boundary_request_not_empty :
    inProgressShiftHours 7 = [7] ∧
    inProgressShiftHours 19 = [19] ∧
    inProgressShiftHours 7 ≠ [] := by
  refine ⟨by decide, by decide, by decide⟩

/-- C4 (amended): at exactly hour 7 and hour 19 the code requests exactly
one hour of the newly active shift — the hour that just began — because the
in-progress range runs from the shift start through the current hour
inclusive; and no zero- or negative-length range is ever requested: every
register read issued at any hour is a single word (count 1). -/
theorem c4_boundary_requests_one_hour_all_reads_positive :
    inProgressShiftHours 7 = [7] ∧
    inProgressShiftHours 19 = [19] ∧
    (∀ h : ℕ, ∀ p ∈ requestedReads h, 0 < p.2) := by
  refine ⟨by decide, by decide, ?_⟩
  intro h p hp
  have hp2 : p.2 = 1 := by
    unfold requestedReads at hp
    rw [List.mem_append] at hp
    rcases hp with hp | hp
    · simp only [List.mem_cons, List.not_mem_nil] at hp
      rcases hp with h' | h' | h' | h' | h' <;> simp_all
    · revert hp
      split
      · rw [List.mem_append]
        rintro (hp | hp) <;>
          · rw [List.mem_map] at hp
            obtain ⟨i, _, hi⟩ := hp
            rw [← hi]
      · split
        · rw [List.mem_append]
          rintro (hp | hp) <;>
            · rw [List.mem_map] at hp
              obtain ⟨i, _, hi⟩ := hp
              rw [← hi]
        · rw [List.mem_append]
          rintro (hp | hp) <;>
            · rw [List.mem_map] at hp
              obtain ⟨i, _, hi⟩ := hp
              rw [← hi]
  omega

/-- Witness for C4 at hour 14 and the read of register D807. -/
theorem c4_boundary_requests_one_hour_all_reads_positive_witness :
    0 < ((807, 1) : ℕ × ℕ).2 :=
  c4_boundary_requests_one_hour_all_reads_positive.2.2 14 (807, 1) (by decide)

/-! ## The master poller (src/plc_monitor_master.py, `read_plc_data`) -/

/-- `PLCRegisterRange` from src/plc_monitor_master.py lines 43-48; the
start register is kept as its numeric part (`"D800"` ↦ `800`, the code's
`int(range_config.start_register[1:])`); the description string plays no
role in any claim. -/
structure PLCRegisterRange where
  start_register : ℕ
  count : ℕ
deriving DecidableEq

/-- `PLCData` from src/plc_monitor_master.py lines 60-67, without the
`plc_id` and `timestamp` metadata fields (no claim mentions them).
`registers` is the Python dict `register name ↦ value` as an
insertion-ordered association list with unique keys. -/
structure PLCDataM where
  registers : List (ℕ × ℕ)
  connection_status : Bool
  error_message : Option String
deriving DecidableEq

/-- Python dict assignment `m[k] = v`: replace in place if the key exists,
append otherwise. -/
def dictInsert (m : List (ℕ × ℕ)) (k v : ℕ) : List (ℕ × ℕ) :=
  if m.any (fun p => p.1 == k) then
    m.map (fun p => if p.1 == k then (k, v) else p)
  else m ++ [(k, v)]

/-- Storing one successful range read: `for i, value in enumerate(values):
registers[f"D{reg_num + i}"] = value` (src/plc_monitor_master.py
lines 284-286). -/
def insertRange : List (ℕ × ℕ) → ℕ → List ℕ → List (ℕ × ℕ)
  | m, _, [] => m
  | m, addr, v :: vs => insertRange (dictInsert m addr v) (addr + 1) vs

/-- The per-range read loop of `read_plc_data` (src/plc_monitor_master.py
lines 275-293): each configured range is paired with its read outcome; a
failing range is logged and skipped, a successful one is merged. -/
def mergeReads (acc : List (ℕ × ℕ)) :
    List (PLCRegisterRange × Except String (List ℕ)) → List (ℕ × ℕ)
  | [] => acc
  | (r, Except.ok vs) :: rest => mergeReads (insertRange acc r.start_register vs) rest
  | (_, Except.error _) :: rest => mergeReads acc rest

/-- `read_plc_data` from src/plc_monitor_master.py lines 263-320 for one
poll.  The input is either `Except.error e` — an exception escaping the
range loop itself, caught by the outer handler, which returns an error
snapshot with empty registers — or `Except.ok outcomes`, the per-range read
outcomes aligned with the configured ranges.  With at least one register
merged the poll returns a connected snapshot; with none it returns `none`
(the code logs \x22No data read\x22 and returns `None`). -/
def read_plc_data (ranges : List PLCRegisterRange)
    (input : Except String (List (Except String (List ℕ)))) : Option PLCDataM :=
  match input with
  | Except.error e => some ⟨[], false, some e⟩
  | Except.ok outcomes =>
    let registers := mergeReads [] (ranges.zip outcomes)
    if registers.isEmpty then none
    else some ⟨registers, true, none⟩

/-- `k` is a key of the register map. -/
def hasKey (m : List (ℕ × ℕ)) (k : ℕ) : Bool :=
  m.any (fun p => p.1 == k)

theorem hasKey_dictInsert_self (m : List (ℕ × ℕ)) (k v : ℕ) :
    hasKey (dictInsert m k v) k = true := by
  unfold dictInsert hasKey
  split
  · next hany =>
    rw [List.any_eq_true] at hany ⊢
    obtain ⟨p, hp, hpk⟩ := hany
    exact ⟨(k, v), List.mem_map.mpr ⟨p, hp, by simp [hpk]⟩, by simp⟩
  · rw [List.any_eq_true]
    exact ⟨(k, v), by simp, by simp⟩

theorem hasKey_dictInsert_of_hasKey (m : List (ℕ × ℕ)) (k v k' : ℕ)
    (h : hasKey m k' = true) : hasKey (dictInsert m k v) k' = true := by
  unfold dictInsert
  unfold hasKey at h ⊢
  rw [List.any_eq_true] at h
  obtain ⟨p, hp, hpk⟩ := h
  split
  · rw [List.any_eq_true]
    by_cases hk : p.1 = k
    · refine ⟨(k, v), List.mem_map.mpr ⟨p, hp, by simp [hk]⟩, ?_⟩
      simp only [beq_iff_eq] at hpk
      simp [← hpk, hk]
    · exact ⟨p, List.mem_map.mpr ⟨p, hp, by simp [hk]⟩, hpk⟩
  · rw [List.any_eq_true]
    exact ⟨p, List.mem_append_left _ hp, hpk⟩

theorem hasKey_insertRange_of_hasKey (vs : List ℕ) (m : List (ℕ × ℕ))
    (addr k : ℕ) (h : hasKey m k = true) :
    hasKey (insertRange m addr vs) k = true := by
  induction vs generalizing m addr with
  | nil => exact h
  | cons v vs ih =>
    exact ih (dictInsert m addr v) (addr + 1)
      (hasKey_dictInsert_of_hasKey m addr v k h)

theorem hasKey_insertRange_offset (vs : List ℕ) (m : List (ℕ × ℕ))
    (addr i : ℕ) (hi : i < vs.length) :
    hasKey (insertRange m addr vs) (addr + i) = true := by
  induction vs generalizing m addr i with
  | nil => simp at hi
  | cons v vs ih =>
    cases i with
    | zero =>
      simpa using hasKey_insertRange_of_hasKey vs (dictInsert m addr v)
        (addr + 1) addr (hasKey_dictInsert_self m addr v)
    | succ j =>
      have hj : j < vs.length := by simpa using hi
      have := ih (dictInsert m addr v) (addr + 1) j hj
      have harith : addr + 1 + j = addr + (j + 1) := by omega
      rwa [harith] at this

theorem hasKey_mergeReads_of_hasKey
    (pairs : List (PLCRegisterRange × Except String (List ℕ)))
    (acc : List (ℕ × ℕ)) (k : ℕ) (h : hasKey acc k = true) :
    hasKey (mergeReads acc pairs) k = true := by
  induction pairs generalizing acc with
  | nil => exact h
  | cons pr rest ih =>
    obtain ⟨r, o⟩ := pr
    cases o with
    | ok vs => exact ih _ (hasKey_insertRange_of_hasKey vs acc r.start_register k h)
    | error e => exact ih _ h

theorem hasKey_mergeReads_of_success
    (pairs : List (PLCRegisterRange × Except String (List ℕ)))
    (acc : List (ℕ × ℕ)) (r : PLCRegisterRange) (vs : List ℕ)
    (hmem : (r, Except.ok vs) ∈ pairs) (i : ℕ) (hi : i < vs.length) :
    hasKey (mergeReads acc pairs) (r.start_register + i) = true := by
  induction pairs generalizing acc with
  | nil => exact absurd hmem (List.not_mem_nil _)
  | cons pr rest ih =>
    rw [List.mem_cons] at hmem
    rcases hmem with hmem | hmem
    · subst hmem
      exact hasKey_mergeReads_of_hasKey rest _ _
        (hasKey_insertRange_offset vs acc r.start_register i hi)
    · obtain ⟨r', o'⟩ := pr
      cases o' with
      | ok vs' => exact ih _ hmem
      | error e => exact ih _ hmem

theorem ne_nil_of_hasKey (m : List (ℕ × ℕ)) (k : ℕ)
    (h : hasKey m k = true) : m ≠ [] := by
  intro hcontra
  subst hcontra
  simp [hasKey] at h

/-! ## Theorems for claims C10 and C7 -/

/-- C10: every `PLCData` snapshot a poll produces satisfies the invariant:
a disconnected snapshot has an empty register map and a recorded error
message; a connected snapshot has a non-empty register map and no error
message (a poll that merges no registers at all yields no snapshot rather
than a connected one). -/
theorem c10_snapshot_invariant (ranges : List PLCRegisterRange)
    (input : Except String (List (Except String (List ℕ)))) (d : PLCDataM)
    (h : read_plc_data ranges input = some d) :
    (d.connection_status = false → d.registers = [] ∧ d.error_message.isSome) ∧
    (d.connection_status = true → d.registers ≠ [] ∧ d.error_message = none) := by
  cases input with
  | error e =>
    simp only [read_plc_data, Option.some_inj] at h
    subst h
    exact ⟨fun _ => ⟨rfl, rfl⟩, fun hc => by simp at hc⟩
  | ok outcomes =>
    simp only [read_plc_data] at h
    split at h
    · exact absurd h (by simp)
    · next hne =>
      rw [Option.some_inj] at h
      subst h
      refine ⟨fun hc => by simp at hc, fun _ => ⟨?_, rfl⟩⟩
      intro hcontra
      exact hne (by rw [show mergeReads [] (ranges.zip outcomes) = [] from hcontra]; rfl)

/-- Witness for C10: a one-range poll that reads one word. -/
theorem c10_snapshot_invariant_witness : ([((52 : ℕ), (5 : ℕ))] : List (ℕ × ℕ)) ≠ [] :=
  ((c10_snapshot_invariant [⟨52, 1⟩] (Except.ok [Except.ok [5]])
    ⟨[(52, 5)], true, none⟩ rfl).2 rfl).1

/-- C7: in a poll whose ranges partly succeed and partly fail, the failing
ranges are skipped without aborting the rest: the merged map holds an entry
at `start + offset` for every word of every successful range, and the
snapshot's connected flag is true; including the spec's concrete scenario —
three ranges, the second failing, the merged map holding exactly the
entries of ranges one and three. -/
theorem c7_partial_failure_isolation :
    (∀ (ranges : List PLCRegisterRange)
        (outcomes : List (Except String (List ℕ)))
        (r : PLCRegisterRange) (vs : List ℕ),
      (r, Except.ok vs) ∈ ranges.zip outcomes → vs ≠ [] →
      ∀ i : ℕ, i < vs.length →
        ∃ d : PLCDataM, read_plc_data ranges (Except.ok outcomes) = some d ∧
          d.connection_status = true ∧
          hasKey d.registers (r.start_register + i) = true) ∧
    read_plc_data [⟨100, 2⟩, ⟨200, 2⟩, ⟨300, 2⟩]
        (Except.ok [Except.ok [1, 2], Except.error "timeout", Except.ok [5, 6]]) =
      some ⟨[(100, 1), (101, 2), (300, 5), (301, 6)], true, none⟩ := by
  constructor
  · intro ranges outcomes r vs hmem hne i hi
    have hkey : hasKey (mergeReads [] (ranges.zip outcomes))
        (r.start_register + i) = true :=
      hasKey_mergeReads_of_success _ [] r vs hmem i hi
    have hnonempty : mergeReads [] (ranges.zip outcomes) ≠ [] :=
      ne_nil_of_hasKey _ _ hkey
    refine ⟨⟨mergeReads [] (ranges.zip outcomes), true, none⟩, ?_, rfl, hkey⟩
    simp only [read_plc_data]
    rw [if_neg (by simpa using hnonempty)]
  · decide

/-- Witness for C7: two ranges, the second failing, word 1 of range one. -/
theorem c7_partial_failure_isolation_witness :
    ∃ d : PLCDataM,
      read_plc_data [⟨800, 2⟩, ⟨850, 1⟩]
          (Except.ok [Except.ok [3, 4], Except.error "timeout"]) = some d ∧
      d.connection_status = true ∧ hasKey d.registers (800 + 1) = true :=
  c7_partial_failure_isolation.1 [⟨800, 2⟩, ⟨850, 1⟩]
    [Except.ok [3, 4], Except.error "timeout"] ⟨800, 2⟩ [3, 4]
    (List.mem_cons_self _ _) (by decide) 1 (by decide)

/-! ## The collection loop per device
(src/plc_monitor_master.py, `data_collection_loop` lines 391-447) -/

/-- The per-device state the loop carries across cycles:
`live` is the conjunction `plc_id in self.plc_connections ∧
self.connection_status[plc_id]` tested at line 413 (connect success sets
both, connect failure and a read exception clear the status);
`retry` is `retry_counts[plc_id]`, initialised once before the loop and
*not* reset at cycle start; `current` is `current_data[plc_id]`. -/
structure MasterDeviceState where
  live : Bool
  retry : ℕ
  current : Option PLCDataM
deriving DecidableEq

/-- Lines 427-437: read, store the snapshot and reset the retry count when
a `PLCData` is returned (the snapshot's own connected flag becomes the
device's status — an outer read exception set it to false), otherwise keep
everything and increment the retry count. -/
def processRead (s : MasterDeviceState) (ranges : List PLCRegisterRange)
    (input : Except String (List (Except String (List ℕ)))) :
    MasterDeviceState :=
  match read_plc_data ranges input with
  | some d => ⟨d.connection_status, 0, some d⟩
  | none => ⟨s.live, s.retry + 1, s.current⟩

/-- One cycle of `data_collection_loop` for one enabled device
(lines 408-437).  `connectOk` is the outcome `connect_plc` would have if
attempted.  Connected: read.  Not connected and retries left: attempt to
connect; success resets the count and proceeds to read, failure increments
the count and skips the device for this cycle.  Retry budget exhausted:
skip the device (`# Max retries reached, skip this cycle`). -/
def stepMaster (max_retries : ℕ) (s : MasterDeviceState) (connectOk : Bool)
    (ranges : List PLCRegisterRange)
    (input : Except String (List (Except String (List ℕ)))) :
    MasterDeviceState :=
  if s.live then processRead s ranges input
  else if s.retry < max_retries then
    if connectOk then processRead ⟨true, 0, s.current⟩ ranges input
    else ⟨false, s.retry + 1, s.current⟩
  else s

/-- Whether the cycle makes a connection attempt for the device. -/
def attemptsConnect (max_retries : ℕ) (s : MasterDeviceState) : Bool :=
  !s.live && decide (s.retry < max_retries)

/-- `n` further cycles of the loop with fixed per-cycle outcomes. -/
def iterateMaster (max_retries : ℕ) (connectOk : Bool)
    (ranges : List PLCRegisterRange)
    (input : Except String (List (Except String (List ℕ)))) :
    ℕ → MasterDeviceState → MasterDeviceState
  | 0, s => s
  | n + 1, s => iterateMaster max_retries connectOk ranges input n
      (stepMaster max_retries s connectOk ranges input)

/-! ## Theorems for claims C3 and C5 -/

/-- C3 counterexample: a poll in which every configured range fails is not
marked disconnected.  With both ranges of a two-range config failing,
`read_plc_data` returns `None` — no snapshot carries `connected=false` or
the error message — and the cycle leaves the device's status `live = true`
and its previous snapshot in place, merely incrementing the retry count. -/
theorem c3_total_range_failure_not_marked_disconnected :
    read_plc_data [⟨52, 1⟩, ⟨700, 20⟩]
        (Except.ok [Except.error "timeout", Except.error "timeout"]) = none ∧
    stepMaster 3 ⟨true, 0, some ⟨[(52, 1)], true, none⟩⟩ true
        [⟨52, 1⟩, ⟨700, 20⟩]
        (Except.ok [Except.error "timeout", Except.error "timeout"]) =
      ⟨true, 1, some ⟨[(52, 1)], true, none⟩⟩ := by
  exact ⟨rfl, rfl⟩

/-- Auxiliary: merging ranges whose outcomes all failed adds nothing. -/
theorem mergeReads_all_error
    (pairs : List (PLCRegisterRange × Except String (List ℕ)))
    (acc : List (ℕ × ℕ))
    (hall : ∀ pr ∈ pairs, ∃ e, pr.2 = Except.error e) :
    mergeReads acc pairs = acc := by
  induction pairs generalizing acc with
  | nil => rfl
  | cons pr rest ih =>
    obtain ⟨r, o⟩ := pr
    cases o with
    | ok vs =>
      obtain ⟨e, he⟩ := hall (r, Except.ok vs) (List.mem_cons_self _ _)
      simp at he
    | error e =>
      exact ih _ (fun pr' hpr' => hall pr' (List.mem_cons_of_mem _ hpr'))

/-- C3 (amended): when every configured range fails with a per-range error
the poll yields no snapshot at all (`read_plc_data` returns `None`); the
cycle keeps the device's connection flag and cached snapshot unchanged and
increments its retry count.  A snapshot carrying `connected=false` and the
error message arises only from an exception escaping the range loop itself
(the outer handler). -/
theorem c3_total_range_failure_yields_none_and_keeps_status
    (max_retries : ℕ) (connectOk : Bool) (ranges : List PLCRegisterRange)
    (outcomes : List (Except String (List ℕ)))
    (hall : ∀ o ∈ outcomes, ∃ e, o = Except.error e)
    (s : MasterDeviceState) (hs : s.live = true) :
    read_plc_data ranges (Except.ok outcomes) = none ∧
    stepMaster max_retries s connectOk ranges (Except.ok outcomes) =
      ⟨s.live, s.retry + 1, s.current⟩ ∧
    (∀ e : String, read_plc_data ranges (Except.error e) =
      some ⟨[], false, some e⟩) := by
  have hnone : read_plc_data ranges (Except.ok outcomes) = none := by
    simp only [read_plc_data]
    rw [mergeReads_all_error _ []
      (fun pr hpr => hall pr.2 (List.of_mem_zip hpr).2)]
    rfl
  refine ⟨hnone, ?_, fun e => rfl⟩
  unfold stepMaster
  rw [if_pos hs]
  unfold processRead
  rw [hnone]

/-- Witness for C3 (amended): a two-range config failing entirely. -/
theorem c3_total_range_failure_yields_none_and_keeps_status_witness :
    read_plc_data [⟨800, 100⟩, ⟨850, 100⟩]
        (Except.ok [Except.error "a", Except.error "b"]) = none ∧
    stepMaster 3 ⟨true, 2, none⟩ false [⟨800, 100⟩, ⟨850, 100⟩]
        (Except.ok [Except.error "a", Except.error "b"]) = ⟨true, 3, none⟩ ∧
    (∀ e : String, read_plc_data [⟨800, 100⟩, ⟨850, 100⟩] (Except.error e) =
      some ⟨[], false, some e⟩) :=
  c3_total_range_failure_yields_none_and_keeps_status 3 false
    [⟨800, 100⟩, ⟨850, 100⟩] [Except.error "a", Except.error "b"]
    (by intro o ho
        simp only [List.mem_cons, List.not_mem_nil, or_false] at ho
        rcases ho with ho | ho
        · exact ⟨"a", ho⟩
        · exact ⟨"b", ho⟩)
    ⟨true, 2, none⟩ rfl

/-- C5 (code bug): once the retry budget is exhausted the device is not
re-attempted at the next cycle with a reset count — `retry_counts` is
initialised once before the loop and never reset at cycle start, so a
device that is down with `retry = max_retries` is skipped by *every*
subsequent cycle, its count frozen, even when a connection attempt would
now succeed (`connectOk = true`). -/
theorem c5_exhausted_retry_budget_skips_forever :
    ∀ (n : ℕ) (connectOk : Bool) (ranges : List PLCRegisterRange)
      (input : Except String (List (Except String (List ℕ)))),
      iterateMaster 3 connectOk ranges input n ⟨false, 3, none⟩ =
        ⟨false, 3, none⟩ ∧
      attemptsConnect 3 ⟨false, 3, none⟩ = false := by
  intro n connectOk ranges input
  have hstep : stepMaster 3 ⟨false, 3, none⟩ connectOk ranges input =
      ⟨false, 3, none⟩ := by
    unfold stepMaster
    norm_num
  constructor
  · induction n with
    | zero => rfl
    | succ m ih =>
      show iterateMaster 3 connectOk ranges input m
        (stepMaster 3 ⟨false, 3, none⟩ connectOk ranges input) = _
      rw [hstep]
      exact ih
  · rfl

end PLCPool
